import Mathlib

/-!
Verification of the RAG (retrieval-augmented generation) pipeline of the
oceanai assignment repository.

The development shallowly embeds the Python sources:
  backend/app/knowledge_base/embeddings.py    (EmbeddingService)
  backend/app/knowledge_base/text_processor.py (TextProcessor)
  backend/app/knowledge_base/vector_store.py  (VectorStoreService)
  backend/app/knowledge_base/rag_service.py   (RAGService)
  backend/app/test_generation/test_case_generator.py (TestCaseGenerator)

External collaborators (the sentence-transformer model, the langchain text
splitter, the ChromaDB nearest-neighbour index distance, and the LLM call) are
taken as explicit function or value parameters; everything written in the
repository itself is translated directly.  Machine floats are modelled as
rationals, Python exceptions as `Except` values.
-/

namespace OceanRAG

/-- Exceptions a call in this pipeline can raise. -/
inductive PyErr where
  | providerError
  | storeError
  | valueError
  deriving DecidableEq, Repr

/-- `Document` as produced by the (external) document loader:
content, filename and an open metadata map. -/
structure Document where
  content : String
  filename : String
  metadata : List (String × String)
  deriving DecidableEq, Repr

/-- `TextChunk` dataclass from text_processor.py. -/
structure TextChunk where
  text : String
  chunk_id : String
  source_filename : String
  chunk_index : Nat
  metadata : List (String × String)
  deriving DecidableEq, Repr

/-- One persisted record of the ChromaDB collection, as written by
`VectorStoreService.add_chunks`: id, document text, the metadata entries
(`source_filename`, `chunk_index`, plus the chunk's open map) and the
embedding vector.  The collection itself is modelled as a `List StoredRec`
in insertion order. -/
structure StoredRec where
  id : String
  document : String
  source_filename : String
  chunk_index : Nat
  metadata : List (String × String)
  embedding : List ℚ
  deriving DecidableEq, Repr

/-- One element of the result list of `RAGService.search`. -/
structure SearchResult where
  text : String
  similarity_score : ℚ
  source_filename : String
  deriving DecidableEq, Repr

/-! ## Character-level helpers

Python string predicates recur throughout the pipeline; they are modelled on
character lists (structural recursion, so every concrete instance reduces
inside the kernel). -/

/-- Whitespace as Python's `strip`, `\s` and the JSON decoder treat it
(space, tab, newline, carriage return). -/
def isWsChar (c : Char) : Bool :=
  c == ' ' || c == '\t' || c == '\n' || c == '\r'

/-- Drop leading whitespace. -/
def skipWs (cs : List Char) : List Char := cs.dropWhile isWsChar

/-- Strip whitespace from both ends of a character list (`str.strip`). -/
def trimChars (cs : List Char) : List Char :=
  ((cs.dropWhile isWsChar).reverse.dropWhile isWsChar).reverse

/-- Python's `not text or not text.strip()`: true exactly when every
character is whitespace (in particular for the empty string). -/
def strBlank (s : String) : Bool := s.data.all isWsChar

/-- `str.lower` restricted to the ASCII range (all the pipeline compares
against are ASCII keywords). -/
def lowerStr (s : String) : String := String.mk (s.data.map Char.toLower)

/-! ## EmbeddingService (embeddings.py)

The sentence-transformer model is the parameter `model`; `dim` is the
configured `settings.embedding_dimension`. -/

/-- `EmbeddingService.embed_text`: empty or whitespace-only text maps to a
zero vector of the configured dimension, otherwise the model is applied. -/
def embedText (model : String → List ℚ) (dim : Nat) (text : String) : List ℚ :=
  if strBlank text then List.replicate dim 0 else model text

/-- `EmbeddingService.embed_query` is `embed_text`. -/
def embedQuery (model : String → List ℚ) (dim : Nat) (query : String) : List ℚ :=
  embedText model dim query

/-- `EmbeddingService.embed_batch`: an empty input list yields `[]`; empty and
whitespace-only texts are filtered out; if nothing remains, one zero vector per
input text is returned; otherwise the model is applied to the surviving texts
only. -/
def embedBatch (model : String → List ℚ) (dim : Nat) (texts : List String) :
    List (List ℚ) :=
  if texts = [] then []
  else if texts.filter (fun t => !strBlank t) = [] then
    texts.map (fun _ => List.replicate dim 0)
  else (texts.filter (fun t => !strBlank t)).map model

/-! ## TextProcessor (text_processor.py)

The langchain `RecursiveCharacterTextSplitter` is external; it enters as the
parameter `split`.  `_clean_text` is embedded directly. -/

/-- Emit a pending run of `n` spaces, collapsing runs of three or more to
exactly two (the `re.sub` of `_clean_text`). -/
def spacesOut (n : Nat) : List Char :=
  if 3 ≤ n then [' ', ' '] else List.replicate n ' '

/-- Scan characters, collapsing every run of three or more spaces to two.
`n` counts the spaces currently pending. -/
def collapseSpaces : Nat → List Char → List Char
  | n, [] => spacesOut n
  | n, c :: rest =>
    if c = ' ' then collapseSpaces (n + 1) rest
    else spacesOut n ++ c :: collapseSpaces 0 rest

/-- Line-ending normalization of `_clean_text`: `\r\n` and bare `\r` both
become `\n`. -/
def normalizeNewlines : List Char → List Char
  | [] => []
  | '\r' :: '\n' :: rest => '\n' :: normalizeNewlines rest
  | '\r' :: rest => '\n' :: normalizeNewlines rest
  | c :: rest => c :: normalizeNewlines rest

/-- `split('\n')` on characters (one empty trailing line for a trailing
newline, a single empty line for empty input, as in Python). -/
def splitLines : List Char → List (List Char)
  | [] => [[]]
  | '\n' :: rest => [] :: splitLines rest
  | c :: rest =>
    match splitLines rest with
    | [] => [[c]]
    | l :: ls => (c :: l) :: ls

/-- `'\n'.join` on character-list lines. -/
def joinLines : List (List Char) → List Char
  | [] => []
  | [l] => l
  | l :: ls => l ++ '\n' :: joinLines ls

/-- The blank-line pass of `_clean_text`: a non-blank line resets the counter
and is kept; a blank line is kept only while the running count of consecutive
blank lines is at most two. -/
def dropExtraBlankLines : Nat → List (List Char) → List (List Char)
  | _, [] => []
  | bc, l :: rest =>
    if l.all isWsChar then
      if bc + 1 ≤ 2 then l :: dropExtraBlankLines (bc + 1) rest
      else dropExtraBlankLines (bc + 1) rest
    else l :: dropExtraBlankLines 0 rest

/-- `TextProcessor._clean_text`: normalize line endings, drop blank lines
beyond two consecutive, collapse runs of three or more spaces to two, and
strip the ends. -/
def cleanText (text : String) : String :=
  let kept := dropExtraBlankLines 0 (splitLines (normalizeNewlines text.data))
  String.mk (trimChars (collapseSpaces 0 (joinLines kept)))

/-- Build the `TextChunk` for piece `idx` of a document, as in
`TextProcessor.process_document`: id `filename:chunk_idx`, the document
metadata extended with the chunk count and character count. -/
def mkChunk (filename : String) (docMeta : List (String × String)) (total idx : Nat)
    (t : String) : TextChunk :=
  { text := t
    chunk_id := filename ++ ":chunk_" ++ toString idx
    source_filename := filename
    chunk_index := idx
    metadata := docMeta ++ [("chunk_count", toString total), ("char_count", toString t.length)] }

/-- `TextProcessor.process_document`: empty or whitespace-only content yields
no chunks; otherwise the cleaned content is split (externally) and each piece
becomes a `TextChunk` with its position as `chunk_index`. -/
def processDocument (split : String → List String) (content filename : String)
    (docMeta : List (String × String)) : List TextChunk :=
  if strBlank content then []
  else
    let pieces := split (cleanText content)
    pieces.enum.map (fun p => mkChunk filename docMeta pieces.length p.1 p.2)

/-! ## VectorStoreService (vector_store.py)

ChromaDB itself is external.  Its collection is modelled as a list of records
in insertion order; its `query` contract (used with a fixed metric chosen at
collection creation) returns the `n_results` stored records nearest to the
query embedding in ascending-distance order, optionally restricted by the
`where` filter on `source_filename`.  The metric is the parameter `dist`. -/

/-- Record built by `add_chunks` for one chunk/embedding pair. -/
def chunkToRec (c : TextChunk) (e : List ℚ) : StoredRec :=
  { id := c.chunk_id
    document := c.text
    source_filename := c.source_filename
    chunk_index := c.chunk_index
    metadata := c.metadata
    embedding := e }

/-- `VectorStoreService.add_chunks`: raises `ValueError` when the chunks and
embeddings counts differ; otherwise appends one record per pair (an empty
chunk list returns with no change).  No per-vector dimension check is made. -/
def vsAddChunks (chunks : List TextChunk) (embeddings : List (List ℚ))
    (col : List StoredRec) : Except PyErr (List StoredRec) :=
  if chunks.length ≠ embeddings.length then Except.error PyErr.valueError
  else Except.ok (col ++ (chunks.zip embeddings).map (fun p => chunkToRec p.1 p.2))

/-- Ordering of scored records by ascending distance. -/
def distLE (a b : StoredRec × ℚ) : Prop := a.2 ≤ b.2

instance : DecidableRel distLE :=
  fun a b => inferInstanceAs (Decidable (a.2 ≤ b.2))

instance : IsTotal (StoredRec × ℚ) distLE :=
  ⟨fun a b => le_total a.2 b.2⟩

instance : IsTrans (StoredRec × ℚ) distLE :=
  ⟨fun _ _ _ h1 h2 => le_trans h1 h2⟩

/-- `VectorStoreService.query`: restrict by the optional `source_filename`
filter, score every record by its distance to the query embedding, and return
the `nResults` nearest in ascending-distance order. -/
def vsQuery (col : List StoredRec) (qemb : List ℚ) (nResults : Nat)
    (whereFilter : Option String) (dist : List ℚ → List ℚ → ℚ) :
    List (StoredRec × ℚ) :=
  let pool := match whereFilter with
    | none => col
    | some fn => col.filter (fun r => r.source_filename == fn)
  (List.insertionSort distLE (pool.map (fun r => (r, dist qemb r.embedding)))).take nResults

/-- `VectorStoreService.delete_by_filename`: remove every record whose
`source_filename` matches and return how many were removed (0 when none,
not an error). -/
def vsDeleteByFilename (filename : String) (col : List StoredRec) :
    Nat × List StoredRec :=
  ((col.filter (fun r => r.source_filename == filename)).length,
    col.filter (fun r => !(r.source_filename == filename)))

/-- `VectorStoreService.search_by_metadata` as used by the pipeline, with the
filter `source_filename == filename`: the matching records, capped at
`limit`. -/
def vsSearchByMetadata (col : List StoredRec) (filename : String) (limit : Nat) :
    List StoredRec :=
  (col.filter (fun r => r.source_filename == filename)).take limit

/-- `VectorStoreService.get_collection_stats`: the exact record count paired
with the number of distinct `source_filename` values among a `peek` sample of
at most 100 records. -/
def vsCollectionStats (col : List StoredRec) : Nat × Nat :=
  (col.length, (((col.take 100).map (fun r => r.source_filename)).dedup).length)

/-- The true number of distinct source filenames in the collection (what the
stats would have to report to be exact). -/
def uniqueSources (col : List StoredRec) : Nat :=
  ((col.map (fun r => r.source_filename)).dedup).length

/-! ## RAGService (rag_service.py)

The constructor wires the embedding service, text processor and vector store
together; here their external parts (`model`, `split`, `dist`) stay explicit
parameters.  Defaults come from config.py: `top_k_retrieval = 5`,
`min_similarity_score = 0.5`. -/

/-- The Python substitution `top_k or settings.top_k_retrieval`: `None` and
`0` are falsy, so both are replaced by the default 5. -/
def resolveTopK (topK : Option Nat) : Nat :=
  match topK with
  | none => 5
  | some k => if k = 0 then 5 else k

/-- The Python substitution `min_similarity or settings.min_similarity_score`:
`None` and `0.0` are falsy, so both are replaced by the default 0.5. -/
def resolveMinSim (minSim : Option ℚ) : ℚ :=
  match minSim with
  | none => 1 / 2
  | some s => if s = 0 then 1 / 2 else s

/-- Turn one scored record into a search result, converting its distance `d`
to the similarity `1 / (1 + d)` and reading `source_filename` from the
metadata. -/
def toSearchResult (p : StoredRec × ℚ) : SearchResult :=
  { text := p.1.document
    similarity_score := 1 / (1 + p.2)
    source_filename := p.1.source_filename }

/-- The body of `RAGService.search` (the part inside its `try`): embed the
query (`embedQ` is the outcome of that call, which can raise), query the
vector store for the resolved `top_k` nearest records, convert distances to
similarities, and keep the results whose similarity reaches the resolved
threshold. -/
def ragSearchBody (embedQ : Except PyErr (List ℚ)) (col : List StoredRec)
    (topK : Option Nat) (minSim : Option ℚ) (sourceFilter : Option String)
    (dist : List ℚ → List ℚ → ℚ) : Except PyErr (List SearchResult) := do
  let q ← embedQ
  pure (((vsQuery col q (resolveTopK topK) sourceFilter dist).map toSearchResult).filter
    (fun r => decide (resolveMinSim minSim ≤ r.similarity_score)))

/-- `RAGService.search`: the whole body runs inside `try ... except`, and any
exception is logged and turned into the empty result list. -/
def ragSearch (embedQ : Except PyErr (List ℚ)) (col : List StoredRec)
    (topK : Option Nat) (minSim : Option ℚ) (sourceFilter : Option String)
    (dist : List ℚ → List ℚ → ℚ) : List SearchResult :=
  match ragSearchBody embedQ col topK minSim sourceFilter dist with
  | Except.ok r => r
  | Except.error _ => []

/-- Outcome of `RAGService.ingest_document`. -/
inductive IngestStatus where
  | success (chunksCreated : Nat)
  | skipped
  | error
  deriving DecidableEq, Repr

/-- Steps 2-4 of `RAGService.ingest_document`: chunk the content (error when
no chunks result), embed the chunk texts, and add the records to the store;
a `ValueError` from `add_chunks` is caught by the surrounding `except` and
reported as an error with the store unchanged. -/
def ingestProceed (split : String → List String) (model : String → List ℚ)
    (dim : Nat) (doc : Document) (col : List StoredRec) :
    IngestStatus × List StoredRec :=
  let chunks := processDocument split doc.content doc.filename doc.metadata
  if chunks = [] then (IngestStatus.error, col)
  else
    match vsAddChunks chunks (embedBatch model dim (chunks.map (fun c => c.text))) col with
    | Except.ok col2 => (IngestStatus.success chunks.length, col2)
    | Except.error _ => (IngestStatus.error, col)

/-- `RAGService.ingest_document` on an already loaded document: without
`overwrite`, a document whose filename already has a record is skipped with
the store untouched; with `overwrite`, all records of that filename are
deleted first; then the load-chunk-embed-store pipeline runs. -/
def ingestDocument (split : String → List String) (model : String → List ℚ)
    (dim : Nat) (doc : Document) (overwrite : Bool) (col : List StoredRec) :
    IngestStatus × List StoredRec :=
  if overwrite then
    ingestProceed split model dim doc (vsDeleteByFilename doc.filename col).2
  else if vsSearchByMetadata col doc.filename 1 ≠ [] then (IngestStatus.skipped, col)
  else ingestProceed split model dim doc col

/-- `RAGService.delete_document`: delegates to `delete_by_filename` and
returns `True` when the removed count is positive, `False` otherwise (the
count itself is discarded). -/
def ragDeleteDocument (col : List StoredRec) (filename : String) :
    Bool × List StoredRec :=
  let p := vsDeleteByFilename filename col
  (decide (0 < p.1), p.2)

/-- Squared euclidean distance on rational vectors; a concrete nonnegative
metric used to instantiate the store's distance parameter in witnesses. -/
def sqDist (v w : List ℚ) : ℚ :=
  ((v.zip w).map (fun p => (p.1 - p.2) ^ 2)).sum

/-! ## JSON values and `json.loads` (used by test_case_generator.py)

Python's `json` module is part of the language runtime; `_parse_test_cases`
depends on its exact accept/reject behaviour, so the strict-mode decoder is
embedded here: values are objects, arrays, strings, numbers, booleans and
null; numbers may carry a fraction and exponent; strings use the standard
escapes; unescaped control characters and trailing garbage are rejected. -/

/-- Opening brace character. -/
def lbraceChar : Char := Char.ofNat 123

/-- Closing brace character. -/
def rbraceChar : Char := Char.ofNat 125

/-- A parsed JSON value. -/
inductive Json where
  | null
  | bool (b : Bool)
  | num (q : ℚ)
  | str (s : String)
  | arr (items : List Json)
  | obj (members : List (String × Json))
  deriving Repr

/-- Value of a hexadecimal digit. -/
def hexVal (c : Char) : Option Nat :=
  if c.isDigit then some (c.toNat - 48)
  else if 'a' ≤ c ∧ c ≤ 'f' then some (c.toNat - 87)
  else if 'A' ≤ c ∧ c ≤ 'F' then some (c.toNat - 55)
  else none

/-- Decode a single-character JSON escape. -/
def escChar (e : Char) : Option Char :=
  if e = '"' then some '"'
  else if e = '\\' then some '\\'
  else if e = '/' then some '/'
  else if e = 'b' then some (Char.ofNat 8)
  else if e = 'f' then some (Char.ofNat 12)
  else if e = 'n' then some '\n'
  else if e = 'r' then some '\r'
  else if e = 't' then some '\t'
  else none

/-- Parse the body of a JSON string after the opening quote, returning the
decoded characters and the input after the closing quote.  Unescaped control
characters and unknown escapes are rejected (strict mode). -/
def parseJString : Nat → List Char → Option (List Char × List Char)
  | 0, _ => none
  | f + 1, cs =>
    match cs with
    | [] => none
    | c :: rest =>
      if c = '"' then some ([], rest)
      else if c = '\\' then
        match rest with
        | [] => none
        | e :: rest2 =>
          if e = 'u' then
            match rest2 with
            | h1 :: h2 :: h3 :: h4 :: rest3 =>
              match hexVal h1, hexVal h2, hexVal h3, hexVal h4 with
              | some a, some b, some c2, some d =>
                (parseJString f rest3).map
                  (fun p => (Char.ofNat (((a * 16 + b) * 16 + c2) * 16 + d) :: p.1, p.2))
              | _, _, _, _ => none
            | _ => none
          else
            match escChar e with
            | some ec => (parseJString f rest2).map (fun p => (ec :: p.1, p.2))
            | none => none
      else if c.toNat < 32 then none
      else (parseJString f rest).map (fun p => (c :: p.1, p.2))

/-- Accumulated value of a run of decimal digits. -/
def digitsToNat (ds : List Char) : Nat :=
  ds.foldl (fun acc c => acc * 10 + (c.toNat - 48)) 0

/-- Optional fraction part `.digits` of a JSON number; yields its value. -/
def parseFracPart (cs : List Char) : Option (ℚ × List Char) :=
  match cs with
  | '.' :: rest =>
    let fd := rest.takeWhile Char.isDigit
    if fd = [] then none
    else some ((digitsToNat fd : ℚ) / (10 : ℚ) ^ fd.length, rest.dropWhile Char.isDigit)
  | _ => some (0, cs)

/-- Optional exponent part of a JSON number; yields the factor to scale by. -/
def parseExpPart (cs : List Char) : Option (ℚ × List Char) :=
  match cs with
  | c :: rest =>
    if c = 'e' ∨ c = 'E' then
      let sign : Bool × List Char :=
        match rest with
        | '+' :: r => (false, r)
        | '-' :: r => (true, r)
        | r => (false, r)
      let ed := sign.2.takeWhile Char.isDigit
      if ed = [] then none
      else
        let p : ℚ := (10 : ℚ) ^ digitsToNat ed
        some (if sign.1 then 1 / p else p, sign.2.dropWhile Char.isDigit)
    else some (1, cs)
  | [] => some (1, [])

/-- Parse a JSON number (optional minus, integer part without leading zeros,
optional fraction, optional exponent). -/
def parseNumber (cs : List Char) : Option (ℚ × List Char) :=
  let sign : Bool × List Char :=
    match cs with
    | '-' :: rest => (true, rest)
    | _ => (false, cs)
  let ids := sign.2.takeWhile Char.isDigit
  if ids = [] then none
  else if 1 < ids.length ∧ ids.head? = some '0' then none
  else
    match parseFracPart (sign.2.dropWhile Char.isDigit) with
    | none => none
    | some (fr, cs2) =>
      match parseExpPart cs2 with
      | none => none
      | some (mult, cs3) =>
        let mag := ((digitsToNat ids : ℚ) + fr) * mult
        some (if sign.1 then -mag else mag, cs3)

/-- Recursive-descent core of the decoder, fuel-indexed.  Mode 0 parses one
value; mode 1 parses the items of a non-empty array up to `]` (returned
wrapped in `Json.arr`); any other mode parses the members of a non-empty
object up to the closing brace (returned wrapped in `Json.obj`). -/
def parseCore : Nat → Nat → List Char → Option (Json × List Char)
  | 0, _, _ => none
  | f + 1, 0, cs =>
    match skipWs cs with
    | [] => none
    | c :: rest =>
      if c = '"' then
        (parseJString (f + 1) rest).map (fun p => (Json.str (String.mk p.1), p.2))
      else if c = '[' then
        match skipWs rest with
        | ']' :: rest2 => some (Json.arr [], rest2)
        | _ => parseCore f 1 rest
      else if c = lbraceChar then
        match skipWs rest with
        | c2 :: rest2 =>
          if c2 = rbraceChar then some (Json.obj [], rest2)
          else parseCore f 2 (c2 :: rest2)
        | [] => none
      else if c = 't' then
        match rest with
        | 'r' :: 'u' :: 'e' :: rest2 => some (Json.bool true, rest2)
        | _ => none
      else if c = 'f' then
        match rest with
        | 'a' :: 'l' :: 's' :: 'e' :: rest2 => some (Json.bool false, rest2)
        | _ => none
      else if c = 'n' then
        match rest with
        | 'u' :: 'l' :: 'l' :: rest2 => some (Json.null, rest2)
        | _ => none
      else
        (parseNumber (c :: rest)).map (fun p => (Json.num p.1, p.2))
  | f + 1, 1, cs =>
    match parseCore f 0 cs with
    | none => none
    | some (v, rest) =>
      match skipWs rest with
      | ',' :: rest2 =>
        match parseCore f 1 rest2 with
        | some (Json.arr l, r) => some (Json.arr (v :: l), r)
        | _ => none
      | ']' :: rest2 => some (Json.arr [v], rest2)
      | _ => none
  | f + 1, _, cs =>
    match skipWs cs with
    | [] => none
    | c :: rest =>
      if c = '"' then
        match parseJString (f + 1) rest with
        | none => none
        | some (key, rest2) =>
          match skipWs rest2 with
          | ':' :: rest3 =>
            match parseCore f 0 rest3 with
            | none => none
            | some (v, rest4) =>
              match skipWs rest4 with
              | ',' :: rest5 =>
                match parseCore f 2 rest5 with
                | some (Json.obj l, r) => some (Json.obj ((String.mk key, v) :: l), r)
                | _ => none
              | c6 :: rest6 =>
                if c6 = rbraceChar then some (Json.obj [(String.mk key, v)], rest6)
                else none
              | [] => none
          | _ => none
      else none
termination_by structural f _ _ => f

/-- `json.loads`: parse one value and require only whitespace after it. -/
def jsonLoads (s : String) : Option Json :=
  match parseCore (2 * s.data.length + 8) 0 s.data with
  | some (v, rest) => if skipWs rest = [] then some v else none
  | none => none

/-! ## TestCaseGenerator (test_case_generator.py)

`_parse_test_cases` hunts for a fenced block tagged `json` first and falls
back to the first bracketed list-of-objects literal; the two `re.search`
patterns are reproduced on character lists below. -/

/-- Strip `pat` from the front of `cs` if it is literally there. -/
def dropPat : List Char → List Char → Option (List Char)
  | [], rest => some rest
  | _ :: _, [] => none
  | p :: ps, c :: rest => if p = c then dropPat ps rest else none

/-- The input just after the first occurrence of `pat`, if any. -/
def afterPat (pat : List Char) : List Char → Option (List Char)
  | [] => match pat with
    | [] => some []
    | _ :: _ => none
  | c :: rest =>
    match dropPat pat (c :: rest) with
    | some r => some r
    | none => afterPat pat rest

/-- The input strictly before the first occurrence of `pat`, if any. -/
def beforePat (pat : List Char) : List Char → Option (List Char)
  | [] => match pat with
    | [] => some []
    | _ :: _ => none
  | c :: rest =>
    if (dropPat pat (c :: rest)).isSome then some []
    else (beforePat pat rest).map (fun l => c :: l)

/-- Group 1 of the fenced-block pattern: the text between the first
occurrence of the fence opener tagged `json` and the next fence, with
surrounding whitespace absorbed by the pattern's greedy wings. -/
def fenceBody (resp : String) : Option String :=
  match afterPat "```json".data resp.data with
  | none => none
  | some rest =>
    match beforePat "```".data rest with
    | none => none
    | some mid => some (String.mk (trimChars mid))

/-- After a closing brace: if whitespace then `]` follows, the consumed
characters (including the `]`) and the remainder. -/
def wsCloseTail (cs : List Char) : Option (List Char × List Char) :=
  let w := cs.takeWhile isWsChar
  match cs.dropWhile isWsChar with
  | ']' :: r2 => some (w ++ [']'], r2)
  | _ => none

/-- Lazy scan for the earliest closing brace that is followed by optional
whitespace and `]`; returns everything consumed including that `]`. -/
def findBodyEnd : List Char → Option (List Char)
  | [] => none
  | c :: rest =>
    if c = rbraceChar then
      match wsCloseTail rest with
      | some p => some (c :: p.1)
      | none => (findBodyEnd rest).map (fun b => c :: b)
    else (findBodyEnd rest).map (fun b => c :: b)

/-- Attempt of the raw-array pattern anchored at the current position:
`[`, optional whitespace, an opening brace, then the lazy body scan. -/
def matchArrayHere (cs : List Char) : Option (List Char) :=
  match cs with
  | '[' :: rest =>
    let w := rest.takeWhile isWsChar
    match rest.dropWhile isWsChar with
    | c2 :: r2 =>
      if c2 = lbraceChar then (findBodyEnd r2).map (fun b => '[' :: (w ++ c2 :: b))
      else none
    | [] => none
  | _ => none

/-- `re.search` of the raw-array pattern: the whole match at the earliest
position where it succeeds. -/
def findArraySlice : List Char → Option (List Char)
  | [] => none
  | c :: rest =>
    match matchArrayHere (c :: rest) with
    | some m => some m
    | none => findArraySlice rest

/-- The extraction chain of `_parse_test_cases`: the fenced block's contents
when such a block exists, else the first raw array literal, else nothing.
When a fence is found its contents are committed to - a fence whose body is
invalid JSON is not retried against the raw-array pattern. -/
def extractJsonStr (resp : String) : Option String :=
  match fenceBody resp with
  | some s => some s
  | none => (findArraySlice resp.data).map String.mk

/-- `TestType` enumeration from models/test_case.py. -/
inductive TestType where
  | positive
  | negative
  | edge_case
  | boundary
  deriving DecidableEq, Repr

/-- The `TestCase` dataclass, restricted to the fields `_dict_to_test_case`
fills.  The dataclass performs no runtime type validation, so the six
required fields hold whatever JSON values the model produced. -/
structure TestCase where
  test_id : Json
  feature : Json
  test_scenario : Json
  test_steps : Json
  expected_result : Json
  grounded_in : Json
  test_type : TestType
  deriving Repr

/-- Python `dict` lookup on parsed members (later duplicates win). -/
def jget (kvs : List (String × Json)) (k : String) : Option Json :=
  (kvs.reverse.find? (fun p => p.1 == k)).map (fun p => p.2)

/-- The required fields checked by `_dict_to_test_case`. -/
def requiredFields : List String :=
  ["test_id", "feature", "test_scenario", "test_steps", "expected_result", "grounded_in"]

/-- Does a parsed item carry every required field (the acceptance criterion
stated by the spec)?  Only objects can. -/
def hasRequiredFields (j : Json) : Bool :=
  match j with
  | Json.obj kvs => requiredFields.all (fun k => (jget kvs k).isSome)
  | _ => false

/-- `test_type_map.get(test_type_str, TestType.POSITIVE)` applied to the
lowercased string. -/
def normalizeTestType (s : String) : TestType :=
  let low := lowerStr s
  if low = "positive" then TestType.positive
  else if low = "negative" then TestType.negative
  else if low = "edge_case" then TestType.edge_case
  else TestType.positive

/-- `_dict_to_test_case`: fails (raising, hence the item is dropped by the
caller's per-item handler) when the value is not an object, when any of the
six required fields is absent, or when a present `test_type` value is not a
string (`.lower()` raises on it); otherwise builds the `TestCase`. -/
def dictToTestCase (j : Json) : Option TestCase :=
  match j with
  | Json.obj kvs =>
    match jget kvs "test_id", jget kvs "feature", jget kvs "test_scenario",
          jget kvs "test_steps", jget kvs "expected_result", jget kvs "grounded_in" with
    | some tid, some fe, some sc, some st, some er, some gr =>
      match (jget kvs "test_type").getD (Json.str "positive") with
      | Json.str s =>
        some { test_id := tid, feature := fe, test_scenario := sc, test_steps := st
               expected_result := er, grounded_in := gr, test_type := normalizeTestType s }
      | _ => none
    | _, _, _, _, _, _ => none
  | _ => none

/-- `TestCaseGenerator._parse_test_cases`: extract a JSON text by the chain,
decode it, require a list, and convert the items one by one, dropping each
item whose conversion fails; every failure path yields `[]` and nothing
escapes to the caller. -/
def parseTestCases (resp : String) : List TestCase :=
  match extractJsonStr resp with
  | none => []
  | some s =>
    match jsonLoads s with
    | none => []
    | some (Json.arr items) => items.filterMap dictToTestCase
    | some _ => []

/-- `TestCaseGenerator.generate_test_cases`: retrieve context through
`RAGService.search` (with the configured similarity default passed
explicitly); an empty retrieval short-circuits to `[]`; otherwise the LLM
call's outcome (`llm`) is awaited and its response parsed.  The surrounding
`except` clause re-raises, so an LLM exception propagates unchanged. -/
def generateTestCases (embedQ : Except PyErr (List ℚ)) (col : List StoredRec)
    (dist : List ℚ → List ℚ → ℚ) (llm : Except PyErr String)
    (topKRetrieval : Nat) : Except PyErr (List TestCase) :=
  let ctx := ragSearch embedQ col (some topKRetrieval) (some (1 / 2)) none dist
  if ctx = [] then Except.ok []
  else do
    let resp ← llm
    Except.ok (parseTestCases resp)

/-! ## Spec-side definitions

These follow the specification's wording (for refinement comparisons and for
stating acceptance criteria); they are not translations of the source. -/

/-- Ordering of search results by descending similarity. -/
def simGE (a b : SearchResult) : Prop := b.similarity_score ≤ a.similarity_score

instance : DecidableRel simGE :=
  fun a b => inferInstanceAs (Decidable (b.similarity_score ≤ a.similarity_score))

instance : IsTotal SearchResult simGE :=
  ⟨fun a b => le_total b.similarity_score a.similarity_score⟩

instance : IsTrans SearchResult simGE :=
  ⟨fun _ _ _ h1 h2 => le_trans h2 h1⟩

/-- Modelled from the spec (section 4.4 of the retrieval engine): query the
index for the `top_k` nearest records, convert each distance to a similarity,
drop the entries below the threshold, and return the remainder sorted stably
by descending similarity. -/
def specSearch (col : List StoredRec) (qemb : List ℚ) (k : Nat) (minSim : ℚ)
    (sf : Option String) (dist : List ℚ → List ℚ → ℚ) : List SearchResult :=
  List.insertionSort simGE
    (((vsQuery col qemb k sf dist).map toSearchResult).filter
      (fun r => decide (minSim ≤ r.similarity_score)))

/-- The contract C2 asserts of one `search` call: every result's score
reaches the threshold and is the converted distance of a queried record,
scores are non-increasing, and the result coincides with the spec-side
truncate-convert-filter-sort pipeline. -/
def searchContractOk (q : List ℚ) (col : List StoredRec) (topK : Option Nat)
    (minSim : Option ℚ) (sf : Option String)
    (dist : List ℚ → List ℚ → ℚ) : Prop :=
  (∀ r ∈ ragSearch (Except.ok q) col topK minSim sf dist,
      resolveMinSim minSim ≤ r.similarity_score) ∧
  (∀ r ∈ ragSearch (Except.ok q) col topK minSim sf dist,
      ∃ p ∈ vsQuery col q (resolveTopK topK) sf dist,
        r = toSearchResult p ∧ r.similarity_score = 1 / (1 + p.2)) ∧
  (ragSearch (Except.ok q) col topK minSim sf dist).Pairwise simGE ∧
  ragSearch (Except.ok q) col topK minSim sf dist =
    specSearch col q (resolveTopK topK) (resolveMinSim minSim) sf dist

/-- Is the (defaulted) `test_type` value a string, so that `.lower()`
succeeds on it? -/
def testTypeIsStr (j : Json) : Bool :=
  match j with
  | Json.obj kvs =>
    match (jget kvs "test_type").getD (Json.str "positive") with
    | Json.str _ => true
    | _ => false
  | _ => false

/-- The items of the decoded array the extraction chain finds (empty when
the chain or the decoding fails, or the decoded value is not an array). -/
def extractedItems (resp : String) : List Json :=
  match extractJsonStr resp with
  | none => []
  | some s =>
    match jsonLoads s with
    | some (Json.arr items) => items
    | _ => []

/-- The records produced for a chunk list whose texts all embed individually
(what a successful ingestion appends to the store). -/
def newRecords (model : String → List ℚ) (chunks : List TextChunk) : List StoredRec :=
  chunks.map (fun c => chunkToRec c (model c.text))

/-! ## Concrete instances used by counterexamples and witnesses -/

/-- `settings.embedding_dimension` (config.py). -/
def settingsEmbeddingDim : Nat := 384

/-- A splitter returning the whole text as one piece (what the external
splitter does on input below `chunk_size`). -/
def split1 : String → List String := fun s => [s]

/-- Embedding model producing empty vectors. -/
def modelNil : String → List ℚ := fun _ => []

/-- Embedding model placing every text at `[4]`. -/
def modelFar : String → List ℚ := fun _ => [4]

/-- Embedding model placing every text at `[0]`. -/
def modelZero : String → List ℚ := fun _ => [0]

/-- The sentence of the end-to-end scenario. -/
def specContent : String := "The login button has id 'login-btn'."

/-- The scenario document `spec.md`. -/
def specDoc : Document := ⟨specContent, "spec.md", []⟩

/-- The store after ingesting `spec.md` under `modelFar`. -/
def colC1 : List StoredRec := (ingestDocument split1 modelFar 1 specDoc true []).2

/-- Store with one `a.md` chunk and two `b.md` chunks. -/
def colC3 : List StoredRec :=
  [⟨"a.md:chunk_0", "da", "a.md", 0, [], []⟩,
   ⟨"b.md:chunk_0", "db", "b.md", 0, [], []⟩,
   ⟨"b.md:chunk_1", "db2", "b.md", 1, [], []⟩]

/-- A record for `a.md` at distance 0 from the query `[0]` under `sqDist`. -/
def recC4 : StoredRec := ⟨"a.md:chunk_0", "doc", "a.md", 0, [], [0]⟩

/-- A tiny document for the ingestion witnesses. -/
def docH : Document := ⟨"hello", "h.md", []⟩

/-- Store holding a stale `h.md` record and one unrelated record. -/
def colC7 : List StoredRec :=
  [⟨"h.md:chunk_0", "old", "h.md", 0, [], []⟩,
   ⟨"other.md:chunk_0", "keep", "other.md", 0, [], []⟩]

/-- Store with 101 records over two sources, the second appearing only at
position 101 (beyond the peek window). -/
def colBig : List StoredRec :=
  List.replicate 100 (⟨"a", "d", "a.md", 0, [], []⟩ : StoredRec) ++
    [⟨"b", "d", "b.md", 0, [], []⟩]

/-- Generation output whose single item has every required field but a
numeric `test_type`. -/
def respC9 : String :=
  "```json\n[\x7b\"test_id\": \"t\", \"feature\": \"f\", \"test_scenario\": \"s\", \"test_steps\": [], \"expected_result\": \"e\", \"grounded_in\": \"g\", \"test_type\": 1\x7d]\n```"

/-- Generation output with one well-formed record in a fenced block. -/
def respGood : String :=
  "Here are the cases:\n```json\n[\x7b\"test_id\": \"t1\", \"feature\": \"f\", \"test_scenario\": \"s\", \"test_steps\": [\"a\"], \"expected_result\": \"e\", \"grounded_in\": \"spec.md\"\x7d]\n```"

/-- The fenced body extracted from `respGood`. -/
def jstrGood : String :=
  "[\x7b\"test_id\": \"t1\", \"feature\": \"f\", \"test_scenario\": \"s\", \"test_steps\": [\"a\"], \"expected_result\": \"e\", \"grounded_in\": \"spec.md\"\x7d]"

/-- The decoded items of `jstrGood`. -/
def itemsGood : List Json :=
  [Json.obj [("test_id", Json.str "t1"), ("feature", Json.str "f"),
    ("test_scenario", Json.str "s"), ("test_steps", Json.arr [Json.str "a"]),
    ("expected_result", Json.str "e"), ("grounded_in", Json.str "spec.md")]]

/-! ## Helper lemmas -/

set_option maxRecDepth 100000

theorem sqDist_nonneg (v w : List ℚ) : 0 ≤ sqDist v w := by
  refine List.sum_nonneg ?_
  intro x hx
  obtain ⟨p, _, rfl⟩ := List.mem_map.mp hx
  exact sq_nonneg _

theorem filter_not_filter_self (col : List StoredRec) (fn : String) :
    (col.filter (fun r => !(r.source_filename == fn))).filter
      (fun r => r.source_filename == fn) = [] := by
  refine List.filter_eq_nil_iff.2 (fun a ha => ?_)
  have h3 := (List.mem_filter.1 ha).2
  simp only [Bool.not_eq_eq_eq_not, Bool.not_true] at h3
  simp [h3]

theorem filter_not_idem (col : List StoredRec) (fn : String) :
    (col.filter (fun r => !(r.source_filename == fn))).filter
        (fun r => !(r.source_filename == fn)) =
      col.filter (fun r => !(r.source_filename == fn)) :=
  List.filter_eq_self.2 (fun _ ha => (List.mem_filter.1 ha).2)

theorem embedBatch_no_empty (model : String → List ℚ) (dim : Nat)
    (texts : List String) (h : ∀ t ∈ texts, strBlank t = false) :
    embedBatch model dim texts = texts.map model := by
  have hf : texts.filter (fun t => !strBlank t) = texts :=
    List.filter_eq_self.2 (fun a ha => by simp [h a ha])
  by_cases he : texts = []
  · subst he; simp [embedBatch]
  · unfold embedBatch
    rw [if_neg he, hf, if_neg he]

theorem dedup_length_take_le (l : List String) (n : Nat) :
    ((l.take n).dedup).length ≤ l.dedup.length := by
  rw [← List.card_toFinset, ← List.card_toFinset]
  apply Finset.card_le_card
  intro x hx
  rw [List.mem_toFinset] at hx ⊢
  exact List.mem_of_mem_take hx

/-! ## Claim C10 -/

/-- Claim C10: `get_collection_stats` reports the total record count exactly,
while `unique_sources` is computed from a peek sample of at most 100 records,
so it never overcounts but can undercount: a concrete store with 101 records
over two sources reports a single unique source. -/
theorem claim_c10 :
    (∀ col : List StoredRec,
        (vsCollectionStats col).1 = col.length ∧
        (vsCollectionStats col).2 ≤ uniqueSources col) ∧
    100 < colBig.length ∧
    (vsCollectionStats colBig).2 < uniqueSources colBig := by
  refine ⟨fun col => ⟨rfl, ?_⟩, by decide, by decide⟩
  unfold vsCollectionStats uniqueSources
  simpa [List.map_take] using
    dedup_length_take_le (col.map (fun r => r.source_filename)) 100

/-! ## Claim C3 -/

/-- Claim C3 counterexample: deleting `a.md` removes 1 chunk and deleting
`b.md` removes 2, yet `RAGService.delete_document` returns the same value
(`True`) in both cases, so its return value is not the removed count; and a
second call on the same filename returns `False`, not `0`. -/
theorem claim_c3_counterexample :
    (vsDeleteByFilename "a.md" colC3).1 = 1 ∧
    (vsDeleteByFilename "b.md" colC3).1 = 2 ∧
    (ragDeleteDocument colC3 "a.md").1 = (ragDeleteDocument colC3 "b.md").1 ∧
    (ragDeleteDocument (ragDeleteDocument colC3 "a.md").2 "a.md").1 = false := by
  decide

/-- Claim C3 (amended): the underlying `VectorStoreService.delete_by_filename`
returns the exact number of chunks removed and a second call on the same
filename returns 0 (not an error); `RAGService.delete_document` itself
returns only the Boolean `count > 0`, so its second call returns `False`. -/
theorem claim_c3_amended (col : List StoredRec) (fn : String) :
    (vsDeleteByFilename fn col).1 =
      (col.filter (fun r => r.source_filename == fn)).length ∧
    (vsDeleteByFilename fn (vsDeleteByFilename fn col).2).1 = 0 ∧
    ragDeleteDocument col fn =
      (decide (0 < (vsDeleteByFilename fn col).1), (vsDeleteByFilename fn col).2) ∧
    (ragDeleteDocument (ragDeleteDocument col fn).2 fn).1 = false := by
  refine ⟨rfl, ?_, rfl, ?_⟩
  · show ((vsDeleteByFilename fn col).2.filter (fun r => r.source_filename == fn)).length = 0
    rw [show (vsDeleteByFilename fn col).2 =
          col.filter (fun r => !(r.source_filename == fn)) from rfl,
        filter_not_filter_self]
    rfl
  · show decide (0 < ((ragDeleteDocument col fn).2.filter
        (fun r => r.source_filename == fn)).length) = false
    rw [show (ragDeleteDocument col fn).2 =
          col.filter (fun r => !(r.source_filename == fn)) from rfl,
        filter_not_filter_self]
    rfl

/-! ## Claim C5 -/

/-- Claim C5 counterexample: a batch of one non-empty and one empty text
yields a single embedding vector, not one vector per input text, so the
claimed `embed_many` behaviour (empty entries mapped to zero vectors in
place) fails on mixed batches. -/
theorem claim_c5_counterexample :
    (embedBatch modelNil 3 ["a", ""]).length = 1 ∧
    ["a", ""].length = 2 ∧
    embedBatch modelNil 3 ["a", ""] ≠ [modelNil "a", List.replicate 3 0] := by
  decide

/-- Claim C5 (amended): `embed_text` maps empty or whitespace-only text to a
zero vector of the configured dimension; `embed_batch` filters empty texts
out and embeds only the remainder (so a mixed batch yields fewer vectors
than inputs), produces one zero vector per input only when every text is
empty, and returns `[]` for an empty input list. -/
theorem claim_c5_amended (model : String → List ℚ) (dim : Nat) (t : String)
    (texts : List String) (ht : strBlank t = true)
    (hmix : texts.filter (fun s => !strBlank s) ≠ []) :
    embedText model dim t = List.replicate dim 0 ∧
    embedBatch model dim texts = (texts.filter (fun s => !strBlank s)).map model ∧
    (∀ ts : List String, ts ≠ [] → (∀ s ∈ ts, strBlank s = true) →
        embedBatch model dim ts = ts.map (fun _ => List.replicate dim 0)) := by
  refine ⟨by simp [embedText, ht], ?_, ?_⟩
  · have hne : texts ≠ [] := by
      rintro rfl
      simp at hmix
    unfold embedBatch
    rw [if_neg hne, if_neg hmix]
  · intro ts h1 h2
    have hf : ts.filter (fun s => !strBlank s) = [] :=
      List.filter_eq_nil_iff.2 (fun a ha => by simp [h2 a ha])
    unfold embedBatch
    rw [if_neg h1, if_pos hf]

/-- Witness for the amended C5 at concrete inputs. -/
theorem claim_c5_amended_witness :
    embedText modelNil 3 " " = [0, 0, 0] ∧
    embedBatch modelNil 3 ["a", ""] = [[]] ∧
    embedBatch modelNil 3 [""] = [[0, 0, 0]] := by
  have h := claim_c5_amended modelNil 3 " " ["a", ""] (by decide) (by decide)
  refine ⟨?_, ?_, ?_⟩
  · rw [h.1]; decide
  · rw [h.2.1]; decide
  · rw [h.2.2 [""] (by decide) (by decide)]; decide

/-! ## Claim C6 -/

/-- Claim C6 counterexample: adding a 2-dimensional vector (the configured
index dimension being 384) raises nothing - no `DimensionMismatchError` - and
the mismatched record is stored. -/
theorem claim_c6_counterexample :
    vsAddChunks [⟨"a.md:chunk_0", "a.md:chunk_0", "a.md", 0, []⟩] [[1, 1]] [] =
      Except.ok [chunkToRec ⟨"a.md:chunk_0", "a.md:chunk_0", "a.md", 0, []⟩ [1, 1]] ∧
    (chunkToRec ⟨"a.md:chunk_0", "a.md:chunk_0", "a.md", 0, []⟩ [1, 1]).embedding.length ≠
      settingsEmbeddingDim := by
  exact ⟨rfl, by decide⟩

/-- Claim C6 (amended): `add_chunks` raises `ValueError` exactly when the
chunks and embeddings list lengths differ; otherwise it appends every pair
as given, performing no per-vector dimension check. -/
theorem claim_c6_amended (chunks : List TextChunk) (embeddings : List (List ℚ))
    (col : List StoredRec) :
    (chunks.length ≠ embeddings.length →
        vsAddChunks chunks embeddings col = Except.error PyErr.valueError) ∧
    (chunks.length = embeddings.length →
        vsAddChunks chunks embeddings col =
          Except.ok (col ++ (chunks.zip embeddings).map (fun p => chunkToRec p.1 p.2))) := by
  unfold vsAddChunks
  exact ⟨fun h => by rw [if_pos h], fun h => by rw [if_neg (by simp [h])]⟩

/-- Witness for the amended C6 at concrete inputs. -/
theorem claim_c6_amended_witness :
    vsAddChunks [⟨"c", "t", "a.md", 0, []⟩] [] [] = Except.error PyErr.valueError ∧
    vsAddChunks [⟨"c", "t", "a.md", 0, []⟩] [[1, 1]] [] =
      Except.ok [chunkToRec ⟨"c", "t", "a.md", 0, []⟩ [1, 1]] := by
  refine ⟨(claim_c6_amended [⟨"c", "t", "a.md", 0, []⟩] [] []).1 (by decide), ?_⟩
  rw [(claim_c6_amended [⟨"c", "t", "a.md", 0, []⟩] [[1, 1]] []).2 (by decide)]
  rfl

/-! ## Claim C4 -/

/-- Claim C4 counterexample: with an embedding call that raises a provider
error, the body of `RAGService.search` propagates the error, but `search`
itself catches it and returns `[]` - its caller never sees the exception. -/
theorem claim_c4_counterexample :
    ragSearchBody (Except.error PyErr.providerError) [] none none none sqDist =
      Except.error PyErr.providerError ∧
    ragSearch (Except.error PyErr.providerError) [] none none none sqDist = [] :=
  ⟨rfl, rfl⟩

/-- Claim C4 (amended): `RAGService.search` masks every exception raised by
the embedding capability or the store as an empty result list, so such
errors never reach its caller; an exception raised by the generation call
inside `generate_test_cases` does propagate unchanged to that method's
caller (its handler re-raises). -/
theorem claim_c4_amended (e : PyErr) (col : List StoredRec) (topK : Option Nat)
    (minSim : Option ℚ) (sf : Option String) (dist : List ℚ → List ℚ → ℚ)
    (embedQ : Except PyErr (List ℚ)) (tk : Nat)
    (hctx : ragSearch embedQ col (some tk) (some (1 / 2)) none dist ≠ []) :
    ragSearch (Except.error e) col topK minSim sf dist = [] ∧
    generateTestCases embedQ col dist (Except.error e) tk = Except.error e := by
  refine ⟨rfl, ?_⟩
  unfold generateTestCases
  rw [if_neg hctx]
  rfl

/-- Witness for the amended C4 at concrete inputs. -/
theorem claim_c4_amended_witness :
    ragSearch (Except.error PyErr.providerError) [recC4] (some 5) (some (1 / 2)) none sqDist = [] ∧
    generateTestCases (Except.ok [0]) [recC4] sqDist (Except.error PyErr.providerError) 5 =
      Except.error PyErr.providerError := by
  have h0 : ¬ ((1 : ℚ) / 2 = 0) := by norm_num
  have hctx : ragSearch (Except.ok [0]) [recC4] (some 5) (some (1 / 2)) none sqDist ≠ [] := by
    simp [ragSearch, ragSearchBody, vsQuery, resolveTopK, resolveMinSim, toSearchResult,
      recC4, List.insertionSort, List.orderedInsert, h0]
    norm_num [sqDist]
  exact claim_c4_amended PyErr.providerError [recC4] (some 5) (some (1 / 2)) none sqDist
    (Except.ok [0]) 5 hctx

/-! ## Ingestion lemmas (shared by C7 and C8) -/

theorem processDocument_source (split : String → List String)
    (content filename : String) (meta : List (String × String)) :
    ∀ c ∈ processDocument split content filename meta, c.source_filename = filename := by
  intro c hc
  unfold processDocument at hc
  by_cases h : strBlank content = true
  · simp [h] at hc
  · rw [if_neg h] at hc
    obtain ⟨p, _, rfl⟩ := List.mem_map.1 hc
    rfl

theorem zip_embed_eq (model : String → List ℚ) (chunks : List TextChunk) :
    ((chunks.zip ((chunks.map (fun c => c.text)).map model)).map
      (fun p => chunkToRec p.1 p.2)) = newRecords model chunks := by
  unfold newRecords
  induction chunks with
  | nil => rfl
  | cons a t ih => simp only [List.map_cons, List.zip_cons_cons, ih]

theorem newRecords_source (model : String → List ℚ) (chunks : List TextChunk)
    (fn : String) (h : ∀ c ∈ chunks, c.source_filename = fn) :
    ∀ r ∈ newRecords model chunks, r.source_filename = fn := by
  intro r hr
  obtain ⟨c, hc, rfl⟩ := List.mem_map.1 hr
  exact h c hc

theorem ingestProceed_success (split : String → List String)
    (model : String → List ℚ) (dim : Nat) (doc : Document) (col : List StoredRec)
    (hch : processDocument split doc.content doc.filename doc.metadata ≠ [])
    (htxt : ∀ c ∈ processDocument split doc.content doc.filename doc.metadata,
        strBlank c.text = false) :
    ingestProceed split model dim doc col =
      (IngestStatus.success
        (processDocument split doc.content doc.filename doc.metadata).length,
       col ++ newRecords model
        (processDocument split doc.content doc.filename doc.metadata)) := by
  have hemb : embedBatch model dim
      ((processDocument split doc.content doc.filename doc.metadata).map
        (fun c => c.text)) =
      ((processDocument split doc.content doc.filename doc.metadata).map
        (fun c => c.text)).map model := by
    refine embedBatch_no_empty model dim _ (fun t ht => ?_)
    obtain ⟨c, hc, rfl⟩ := List.mem_map.1 ht
    exact htxt c hc
  unfold ingestProceed
  rw [if_neg hch, hemb]
  unfold vsAddChunks
  rw [if_neg (by simp), zip_embed_eq]

theorem vsSearchByMetadata_ne_nil (col : List StoredRec) (fn : String)
    (r : StoredRec) (hr : r ∈ col) (hfn : r.source_filename = fn) :
    vsSearchByMetadata col fn 1 ≠ [] := by
  unfold vsSearchByMetadata
  have hmem : r ∈ col.filter (fun x => x.source_filename == fn) :=
    List.mem_filter.2 ⟨hr, by simp [hfn]⟩
  cases hf : col.filter (fun x => x.source_filename == fn) with
  | nil => rw [hf] at hmem; cases hmem
  | cons a as => simp

theorem vsSearchByMetadata_nil (col : List StoredRec) (fn : String)
    (h : ∀ r ∈ col, r.source_filename ≠ fn) :
    vsSearchByMetadata col fn 1 = [] := by
  unfold vsSearchByMetadata
  rw [List.filter_eq_nil_iff.2 (fun a ha => by simp [h a ha])]
  rfl

/-! ## Claim C8 -/

/-- Claim C8: with `overwrite=False`, ingesting a document whose filename
already has a record in the store returns `skipped` and leaves the store
untouched; hence ingesting the same document twice from a fresh filename
yields `success` then `skipped`, the second call changes nothing, and the
indexed record count after both calls is that of the first call alone. -/
theorem claim_c8 (split : String → List String) (model : String → List ℚ)
    (dim : Nat) (doc : Document) (col : List StoredRec)
    (hnone : ∀ r ∈ col, r.source_filename ≠ doc.filename)
    (hch : processDocument split doc.content doc.filename doc.metadata ≠ [])
    (htxt : ∀ c ∈ processDocument split doc.content doc.filename doc.metadata,
        strBlank c.text = false) :
    (∀ col2 : List StoredRec, (∃ r ∈ col2, r.source_filename = doc.filename) →
        ingestDocument split model dim doc false col2 = (IngestStatus.skipped, col2)) ∧
    (ingestDocument split model dim doc false col).1 =
      IngestStatus.success
        (processDocument split doc.content doc.filename doc.metadata).length ∧
    ingestDocument split model dim doc false
        (ingestDocument split model dim doc false col).2 =
      (IngestStatus.skipped, (ingestDocument split model dim doc false col).2) ∧
    (ingestDocument split model dim doc false
        (ingestDocument split model dim doc false col).2).2.length =
      (ingestDocument split model dim doc false col).2.length := by
  have hskip : ∀ col2 : List StoredRec,
      (∃ r ∈ col2, r.source_filename = doc.filename) →
      ingestDocument split model dim doc false col2 = (IngestStatus.skipped, col2) := by
    intro col2 ⟨r, hr, hfn⟩
    unfold ingestDocument
    rw [if_neg (by simp), if_pos (vsSearchByMetadata_ne_nil col2 doc.filename r hr hfn)]
  have hfirst : ingestDocument split model dim doc false col =
      (IngestStatus.success
        (processDocument split doc.content doc.filename doc.metadata).length,
       col ++ newRecords model
        (processDocument split doc.content doc.filename doc.metadata)) := by
    unfold ingestDocument
    rw [if_neg (by simp), if_neg (by simp [vsSearchByMetadata_nil col doc.filename hnone])]
    exact ingestProceed_success split model dim doc col hch htxt
  obtain ⟨c, hc⟩ := List.exists_mem_of_ne_nil _ hch
  have hsecond : ingestDocument split model dim doc false
      (ingestDocument split model dim doc false col).2 =
      (IngestStatus.skipped, (ingestDocument split model dim doc false col).2) := by
    refine hskip _ ⟨chunkToRec c (model c.text), ?_, ?_⟩
    · rw [hfirst]
      exact List.mem_append_right _ (List.mem_map.2 ⟨c, hc, rfl⟩)
    · exact processDocument_source split doc.content doc.filename doc.metadata c hc
  exact ⟨hskip, by rw [hfirst], hsecond, by rw [hsecond]⟩

/-- Witness for C8 at concrete inputs. -/
theorem claim_c8_witness :
    (ingestDocument split1 modelNil 0 docH false []).1 = IngestStatus.success 1 ∧
    ingestDocument split1 modelNil 0 docH false
        (ingestDocument split1 modelNil 0 docH false []).2 =
      (IngestStatus.skipped, (ingestDocument split1 modelNil 0 docH false []).2) := by
  have h := claim_c8 split1 modelNil 0 docH [] (by simp) (by decide) (by decide)
  refine ⟨?_, h.2.2.1⟩
  rw [h.2.1]
  decide

/-! ## Claim C7 -/

/-- Claim C7: ingesting with `overwrite=True` deletes every existing record
of that filename before inserting the chunks of the new content, so the
resulting store holds exactly the new records for that filename - none of
any earlier content survives - while other filenames' records are
untouched. -/
theorem claim_c7 (split : String → List String) (model : String → List ℚ)
    (dim : Nat) (doc : Document) (col : List StoredRec)
    (hch : processDocument split doc.content doc.filename doc.metadata ≠ [])
    (htxt : ∀ c ∈ processDocument split doc.content doc.filename doc.metadata,
        strBlank c.text = false) :
    (ingestDocument split model dim doc true col).1 =
      IngestStatus.success
        (processDocument split doc.content doc.filename doc.metadata).length ∧
    (ingestDocument split model dim doc true col).2 =
      col.filter (fun r => !(r.source_filename == doc.filename)) ++
        newRecords model (processDocument split doc.content doc.filename doc.metadata) ∧
    (ingestDocument split model dim doc true col).2.filter
        (fun r => r.source_filename == doc.filename) =
      newRecords model (processDocument split doc.content doc.filename doc.metadata) ∧
    (ingestDocument split model dim doc true col).2.filter
        (fun r => !(r.source_filename == doc.filename)) =
      col.filter (fun r => !(r.source_filename == doc.filename)) := by
  have hsrc : ∀ r ∈ newRecords model
      (processDocument split doc.content doc.filename doc.metadata),
      r.source_filename = doc.filename :=
    newRecords_source model _ doc.filename
      (processDocument_source split doc.content doc.filename doc.metadata)
  have hmain : ingestDocument split model dim doc true col =
      (IngestStatus.success
        (processDocument split doc.content doc.filename doc.metadata).length,
       col.filter (fun r => !(r.source_filename == doc.filename)) ++
        newRecords model
          (processDocument split doc.content doc.filename doc.metadata)) := by
    unfold ingestDocument
    rw [if_pos rfl]
    exact ingestProceed_success split model dim doc _ hch htxt
  have hmain2 : (ingestDocument split model dim doc true col).2 =
      col.filter (fun r => !(r.source_filename == doc.filename)) ++
        newRecords model (processDocument split doc.content doc.filename doc.metadata) := by
    rw [hmain]
  refine ⟨by rw [hmain], hmain2, ?_, ?_⟩
  · rw [hmain2, List.filter_append, filter_not_filter_self,
      List.filter_eq_self.2 (fun a ha => by simp [hsrc a ha])]
    rfl
  · have hnil : (newRecords model
        (processDocument split doc.content doc.filename doc.metadata)).filter
          (fun r => !(r.source_filename == doc.filename)) = [] :=
      List.filter_eq_nil_iff.2 (fun a ha => by simp [hsrc a ha])
    rw [hmain2, List.filter_append, filter_not_idem, hnil, List.append_nil]

/-- Witness for C7 at concrete inputs: re-ingesting `h.md` over a store that
holds a stale `h.md` record and one unrelated record. -/
theorem claim_c7_witness :
    (ingestDocument split1 modelNil 0 docH true colC7).2.filter
        (fun r => r.source_filename == "h.md") =
      newRecords modelNil (processDocument split1 "hello" "h.md" []) ∧
    (ingestDocument split1 modelNil 0 docH true colC7).2.filter
        (fun r => !(r.source_filename == "h.md")) =
      colC7.filter (fun r => !(r.source_filename == "h.md")) := by
  have h := claim_c7 split1 modelNil 0 docH colC7 (by decide) (by decide)
  exact ⟨h.2.2.1, h.2.2.2⟩

/-! ## Claim C1 -/

/-- Claim C1 counterexample: after ingesting `spec.md` (the store then holds
exactly its one chunk), a search with explicit `min_similarity = 0.0` under
an embedding that places the chunk at similarity 1/17 returns no result at
all - the caller's 0.0 threshold was silently replaced by the 0.5 default -
instead of the claimed single `spec.md` result. -/
theorem claim_c1_counterexample :
    colC1.map (fun r => r.source_filename) = ["spec.md"] ∧
    ragSearch (Except.ok [0]) colC1 (some 1) (some 0) none sqDist = [] := by
  constructor
  · decide
  · have hcol : colC1 = [chunkToRec (mkChunk "spec.md" [] 1 0 specContent) [4]] := by
      decide
    rw [hcol]
    simp only [ragSearch, ragSearchBody, vsQuery, resolveTopK, resolveMinSim,
      toSearchResult, chunkToRec, mkChunk, List.insertionSort, List.orderedInsert,
      List.map_cons, List.map_nil, List.take, bind, Except.bind, pure]
    norm_num [sqDist, List.filter]
    rfl

/-- Claim C1 (amended): `search` substitutes Python-falsy arguments with the
configured defaults - an explicit `min_similarity = 0.0` becomes 0.5 and
`top_k = 0` would become 5 - so after ingesting `spec.md` containing the
scenario sentence, `search` with `top_k = 1, min_similarity = 0.0` returns
exactly one result whose `source_filename` is `"spec.md"` provided the
chunk's similarity to the query reaches the substituted 0.5 threshold. -/
theorem claim_c1_amended (split : String → List String) (model : String → List ℚ)
    (dim : Nat) (dist : List ℚ → List ℚ → ℚ) (qemb : List ℚ)
    (hsplit : split specContent = [specContent])
    (hsim : 1 / 2 ≤ 1 / (1 + dist qemb (model specContent))) :
    resolveMinSim (some 0) = 1 / 2 ∧
    resolveTopK (some 0) = 5 ∧
    ragSearch (Except.ok qemb) (ingestDocument split model dim specDoc true []).2
        (some 1) (some 0) none dist =
      [{ text := specContent,
         similarity_score := 1 / (1 + dist qemb (model specContent)),
         source_filename := "spec.md" }] := by
  have hblank : strBlank specContent = false := by decide
  have hclean : cleanText specContent = specContent := by decide
  have hpd : processDocument split specDoc.content specDoc.filename specDoc.metadata =
      [mkChunk "spec.md" [] 1 0 specContent] := by
    show processDocument split specContent "spec.md" [] = _
    simp only [processDocument, hblank, Bool.false_eq_true, if_false, hclean, hsplit]
    rfl
  have hch : processDocument split specDoc.content specDoc.filename specDoc.metadata ≠ [] := by
    rw [hpd]; simp
  have htxt : ∀ c ∈ processDocument split specDoc.content specDoc.filename specDoc.metadata,
      strBlank c.text = false := by
    rw [hpd]
    intro c hc
    rw [List.mem_singleton] at hc
    subst hc
    exact hblank
  have hstore : (ingestDocument split model dim specDoc true []).2 =
      [chunkToRec (mkChunk "spec.md" [] 1 0 specContent) (model specContent)] := by
    have h1 : ingestDocument split model dim specDoc true [] =
        ingestProceed split model dim specDoc [] := by
      unfold ingestDocument
      rw [if_pos rfl]
      rfl
    rw [h1, ingestProceed_success split model dim specDoc [] hch htxt, hpd]
    rfl
  refine ⟨rfl, rfl, ?_⟩
  rw [hstore]
  have hstep : ragSearch (Except.ok qemb)
      [chunkToRec (mkChunk "spec.md" [] 1 0 specContent) (model specContent)]
      (some 1) (some 0) none dist =
      [toSearchResult
        (chunkToRec (mkChunk "spec.md" [] 1 0 specContent) (model specContent),
         dist qemb (model specContent))].filter
        (fun r => decide ((1 : ℚ) / 2 ≤ r.similarity_score)) := rfl
  have hd : decide ((1 : ℚ) / 2 ≤ (toSearchResult
      (chunkToRec (mkChunk "spec.md" [] 1 0 specContent) (model specContent),
       dist qemb (model specContent))).similarity_score) = true :=
    decide_eq_true hsim
  rw [hstep, List.filter_cons, hd]
  rfl

/-- Witness for the amended C1: a model placing both the query and the chunk
at `[0]` gives similarity 1, above the substituted threshold, and the
scenario search returns exactly the one `spec.md` result. -/
theorem claim_c1_amended_witness :
    resolveMinSim (some 0) = 1 / 2 ∧
    resolveTopK (some 0) = 5 ∧
    ragSearch (Except.ok [0]) (ingestDocument split1 modelZero 1 specDoc true []).2
        (some 1) (some 0) none sqDist =
      [{ text := specContent,
         similarity_score := 1 / (1 + sqDist [0] (modelZero specContent)),
         source_filename := "spec.md" }] := by
  refine claim_c1_amended split1 modelZero 1 sqDist [0] rfl ?_
  norm_num [sqDist, modelZero]

/-! ## Claim C2 -/

theorem vsQuery_pairwise (col : List StoredRec) (q : List ℚ) (n : Nat)
    (sf : Option String) (dist : List ℚ → List ℚ → ℚ) :
    (vsQuery col q n sf dist).Pairwise distLE :=
  List.Pairwise.sublist (List.take_sublist _ _) (List.sorted_insertionSort distLE _)

theorem vsQuery_mem (col : List StoredRec) (q : List ℚ) (n : Nat)
    (sf : Option String) (dist : List ℚ → List ℚ → ℚ) {p : StoredRec × ℚ}
    (hp : p ∈ vsQuery col q n sf dist) :
    p.1 ∈ col ∧ p.2 = dist q p.1.embedding := by
  unfold vsQuery at hp
  have hp2 := List.mem_of_mem_take hp
  rw [List.mem_insertionSort] at hp2
  obtain ⟨r, hr, rfl⟩ := List.mem_map.1 hp2
  refine ⟨?_, rfl⟩
  cases sf with
  | none => exact hr
  | some fn => exact (List.mem_filter.1 hr).1

/-- Claim C2: every result of `search` carries the similarity `1 / (1 + d)`
of the distance `d` of the queried record it came from and reaches the
resolved threshold; the result list is non-increasing in similarity; and the
whole call equals the spec-side pipeline that truncates to the `top_k`
nearest records first and filters by the threshold only afterwards. -/
theorem claim_c2 (q : List ℚ) (col : List StoredRec) (topK : Option Nat)
    (minSim : Option ℚ) (sf : Option String) (dist : List ℚ → List ℚ → ℚ)
    (hdist : ∀ v w, 0 ≤ dist v w) :
    searchContractOk q col topK minSim sf dist := by
  have hres : ragSearch (Except.ok q) col topK minSim sf dist =
      ((vsQuery col q (resolveTopK topK) sf dist).map toSearchResult).filter
        (fun r => decide (resolveMinSim minSim ≤ r.similarity_score)) := rfl
  have hnn : ∀ p ∈ vsQuery col q (resolveTopK topK) sf dist, (0 : ℚ) ≤ p.2 := by
    intro p hp
    rw [(vsQuery_mem col q _ sf dist hp).2]
    exact hdist _ _
  have hpair : ((vsQuery col q (resolveTopK topK) sf dist).map toSearchResult).Pairwise simGE := by
    rw [List.pairwise_map]
    refine List.Pairwise.imp_of_mem ?_ (vsQuery_pairwise col q _ sf dist)
    intro a b ha hb hab
    have h0a : (0 : ℚ) ≤ a.2 := hnn a ha
    show 1 / (1 + b.2) ≤ 1 / (1 + a.2)
    exact one_div_le_one_div_of_le (by linarith) (by exact add_le_add_left hab 1)
  refine ⟨?_, ?_, ?_, ?_⟩
  · intro r hr
    rw [hres] at hr
    simpa using List.of_mem_filter hr
  · intro r hr
    rw [hres] at hr
    obtain ⟨p, hp, rfl⟩ := List.mem_map.1 (List.mem_of_mem_filter hr)
    exact ⟨p, hp, rfl, rfl⟩
  · rw [hres]
    exact hpair.filter _
  · rw [hres]
    unfold specSearch
    exact (List.Sorted.insertionSort_eq (hpair.filter _)).symm

/-- Witness for C2 at a concrete store, query and threshold, under the
nonnegative squared euclidean metric. -/
theorem claim_c2_witness :
    searchContractOk [0] colC3 (some 2) (some (3 / 4)) none sqDist :=
  claim_c2 [0] colC3 (some 2) (some (3 / 4)) none sqDist (fun v w => sqDist_nonneg v w)

/-! ## Claim C9 -/

theorem dictToTestCase_isSome (j : Json) :
    (dictToTestCase j).isSome = (hasRequiredFields j && testTypeIsStr j) := by
  cases j with
  | obj kvs =>
    cases h1 : jget kvs "test_id" <;> cases h2 : jget kvs "feature" <;>
      cases h3 : jget kvs "test_scenario" <;> cases h4 : jget kvs "test_steps" <;>
      cases h5 : jget kvs "expected_result" <;> cases h6 : jget kvs "grounded_in" <;>
      cases h7 : (jget kvs "test_type").getD (Json.str "positive") <;>
      simp [dictToTestCase, hasRequiredFields, testTypeIsStr, requiredFields,
        h1, h2, h3, h4, h5, h6, h7]
  | null => rfl
  | bool b => rfl
  | num n => rfl
  | str s => rfl
  | arr l => rfl

/-- Claim C9 counterexample: an output whose single extracted item carries
every required field is nonetheless dropped - the parse returns no records -
because its `test_type` value is the number 1, on which `.lower()` raises
during normalization; so "returns the list of items that contain all
required fields" fails as stated. -/
theorem claim_c9_counterexample :
    (extractedItems respC9).length = 1 ∧
    (extractedItems respC9).all hasRequiredFields = true ∧
    (parseTestCases respC9).length = 0 := by
  refine ⟨by decide, by decide, by decide⟩

/-- Claim C9 (amended): the record-extraction chain tries the fenced `json`
block first, else the first bracketed list-of-objects literal; when nothing
can be extracted, or the extracted body is invalid or truncated JSON, or the
decoded value is not an array, it returns `[]` - the parse is a total
function and never raises; when an array is decoded, the items are converted
independently, an item being kept exactly when it carries all six required
fields and its `test_type` value (when present) is a string - one malformed
item never discards the rest. -/
theorem claim_c9_amended (resp : String) :
    (∀ s, fenceBody resp = some s → extractJsonStr resp = some s) ∧
    (extractJsonStr resp = none → parseTestCases resp = []) ∧
    (∀ s, extractJsonStr resp = some s → jsonLoads s = none →
        parseTestCases resp = []) ∧
    (∀ s j, extractJsonStr resp = some s → jsonLoads s = some j →
        (∀ items, j ≠ Json.arr items) → parseTestCases resp = []) ∧
    (∀ s items, extractJsonStr resp = some s →
        jsonLoads s = some (Json.arr items) →
        parseTestCases resp = items.filterMap dictToTestCase) ∧
    (∀ j, (dictToTestCase j).isSome = (hasRequiredFields j && testTypeIsStr j)) := by
  refine ⟨?_, ?_, ?_, ?_, ?_, dictToTestCase_isSome⟩
  · intro s h
    unfold extractJsonStr
    rw [h]
  · intro h
    unfold parseTestCases
    rw [h]
  · intro s h hl
    simp only [parseTestCases, h, hl]
  · intro s j h hl hne
    cases j with
    | arr items => exact absurd rfl (hne items)
    | null => simp only [parseTestCases, h, hl]
    | bool b => simp only [parseTestCases, h, hl]
    | num n => simp only [parseTestCases, h, hl]
    | str s2 => simp only [parseTestCases, h, hl]
    | obj kvs => simp only [parseTestCases, h, hl]
  · intro s items h hl
    simp only [parseTestCases, h, hl]

/-- Witness for the amended C9: a fenced well-formed record yields exactly
one parsed test case, and an output without any extractable structure yields
none. -/
theorem claim_c9_amended_witness :
    parseTestCases respGood = itemsGood.filterMap dictToTestCase ∧
    (parseTestCases respGood).length = 1 ∧
    parseTestCases "The model refused to answer." = [] := by
  have h := claim_c9_amended respGood
  have h2 := claim_c9_amended "The model refused to answer."
  refine ⟨h.2.2.2.2.1 jstrGood itemsGood (by rfl) (by rfl), ?_,
    h2.2.1 (by rfl)⟩
  rw [h.2.2.2.2.1 jstrGood itemsGood (by rfl) (by rfl)]
  rfl

end OceanRAG
